import Mathlib

/-!
Verification of the probabilistic behavior/state engine of the
HelperRobotBrain / ScaredRobotBrain sources.

Modelling conventions:
* Real-valued quantities (probability masses, voltages, velocities) are
  modelled as rationals.
* Angles are measured in units of pi, so the source's `x / 8 * pi` becomes
  the rational `x / 8` and `ANGLE_TOL = 2*pi/(half_length*20) = pi/80`
  becomes `1/80`.
* The probability library `lib601.dist` is imported by both sources but its
  code is not part of this repository, so its operations are modelled from
  the specification (section 4.1); each such definition says so.
* Python run-time failures (IndexError, KeyError, ZeroDivisionError, and the
  distribution errors InvalidDistribution / EmptyCondition / InvalidWeight /
  EmptySupport) are modelled by `Option`: a step that raises returns `none`.
* `draw` consumes external randomness; each step therefore takes the drawn
  outcome as an input, guarded to lie in the support of the distribution
  being sampled, matching the specification's requirement that zero-mass
  outcomes are excluded from sampling.
-/

/-- Modelled from the spec: `lib601.dist` is not in the repository sources.
A discrete distribution is a finite list of (outcome, mass) pairs
(section 3 of the specification). -/
structure DDist (α : Type) where
  mass : List (α × ℚ)
deriving DecidableEq

/-- Modelled from the spec: `probability(value)` is the mass of `value`,
0 if absent (section 4.1). -/
def DDist.prob {α : Type} [DecidableEq α] (d : DDist α) (x : α) : ℚ :=
  match d.mass.find? (fun q => decide (q.1 = x)) with
  | some q => q.2
  | none => 0

/-- Modelled from the spec: `support()` is the outcomes with nonzero mass,
in the stored deterministic order (section 4.1). -/
def DDist.support {α : Type} (d : DDist α) : List α :=
  (d.mass.filter (fun q => decide (q.2 ≠ 0))).map (fun q => q.1)

/-- Modelled from the spec: `argmax()` / the source's `max_prob_elt`, the
outcome of largest mass, first stored outcome winning ties (section 4.1);
`none` on an empty distribution. -/
def DDist.max_prob_elt {α : Type} (d : DDist α) : Option α :=
  (d.mass.foldl
    (fun acc q =>
      match acc with
      | none => some q
      | some r => if r.2 < q.2 then some q else some r)
    none).map (fun q => q.1)

/-- Modelled from the spec: `delta(value)` puts all mass on one outcome
(section 4.1). -/
def delta_dist {α : Type} (x : α) : DDist α := ⟨[(x, 1)]⟩

/-- Modelled from the spec: `uniform(support_set)`, equal mass over a
non-empty finite set; fails (EmptySupport) on an empty set (section 4.1). -/
def uniform_dist {α : Type} (l : List α) : Option (DDist α) :=
  if l.isEmpty then none
  else some ⟨l.map (fun x => (x, (1 : ℚ) / l.length))⟩

/-- Modelled from the spec: `from_weights(mapping)` normalizes, failing
(InvalidDistribution) if the total weight is not positive or any weight is
negative (section 4.1).  This models the `DDist({...})` constructor calls
of the sources. -/
def DDist.fromWeights {α : Type} (m : List (α × ℚ)) : Option (DDist α) :=
  let total := (m.map (fun q => q.2)).sum
  if 0 < total ∧ m.all (fun q => decide (0 ≤ q.2)) then
    some ⟨m.map (fun q => (q.1, q.2 / total))⟩
  else none

/-- Modelled from the spec: `condition(predicate)` restricts to outcomes
satisfying the predicate and renormalizes; fails (EmptyCondition) when
nothing with positive mass satisfies it (section 4.1). -/
def DDist.condition {α : Type} (d : DDist α) (p : α → Bool) : Option (DDist α) :=
  let kept := d.mass.filter (fun q => p q.1)
  let total := (kept.map (fun q => q.2)).sum
  if 0 < total then some ⟨kept.map (fun q => (q.1, q.2 / total))⟩
  else none

/-- Union of two key lists keeping first-seen order, as a Python dict union
does; used by `mixture`. -/
def keyUnion {α : Type} [DecidableEq α] (l1 l2 : List α) : List α :=
  l1 ++ l2.filter (fun x => decide (x ∉ l1))

/-- Modelled from the spec: `mixture(d1, d2, w)` is the pointwise convex
combination `w*d1 + (1-w)*d2` over the union of supports, failing
(InvalidWeight) when `w` is outside `[0,1]` (sections 4.1 and 8:
`mixture(d1, d2, 1.0) == d1`). -/
def mixture {α : Type} [DecidableEq α] (d1 d2 : DDist α) (w : ℚ) : Option (DDist α) :=
  if 0 ≤ w ∧ w ≤ 1 then
    some ⟨(keyUnion d1.support d2.support).map
      (fun k => (k, w * d1.prob k + (1 - w) * d2.prob k))⟩
  else none

/-- The weight given to the old distribution in the favored-repeat branch of
`random_behavior`: `(10000 - consecutives) / 10000`
(HelperRobotBrain line 34, ScaredRobotBrain line 35). -/
def branch3Weight (consecutives : ℕ) : ℚ := ((10000 : ℚ) - consecutives) / 10000

/-- `random_behavior(prev_behav, near_wall)` from HelperRobotBrain lines 9-48
and ScaredRobotBrain lines 10-49 (the two bodies are identical).  The global
distribution `behavior` is passed in as `bs` and the updated global is
returned next to the drawn behavior; `drawn` is the externally supplied
random draw, guarded to lie in the support of the distribution being
sampled. -/
def random_behavior (bs : DDist String) (consecutives : ℕ)
    (prev_behav : String) (near_wall : Bool) (drawn : String) :
    Option (String × DDist String) :=
  if prev_behav = "search" then some ("search", bs)
  else if near_wall then
    match bs.condition (fun x => decide (x ∉ (["frwd", "search", "stay"] : List String))) with
    | none => none
    | some cd => if drawn ∈ cd.support then some (drawn, bs) else none
  else
    match bs.max_prob_elt with
    | none => none
    | some m =>
      if prev_behav = m then
        match uniform_dist (bs.support.erase prev_behav) with
        | none => none
        | some uni =>
          match mixture bs uni (branch3Weight consecutives) with
          | none => none
          | some nd => if drawn ∈ nd.support then some (drawn, nd) else none
      else
        match mixture bs (delta_dist prev_behav) (min (((consecutives : ℚ) + 1) / 10) 1) with
        | none => none
        | some nd => if drawn ∈ nd.support then some (drawn, nd) else none

/-- HelperRobotBrain line 111: the initial behavior distribution. -/
def INIT_BEHAV : DDist String :=
  ⟨[("stay", 34/100), ("frwd", 33/100), ("turn", 33/100)]⟩

/-- ScaredRobotBrain line 67: the initial behavior distribution, which also
gives `search` a small mass. -/
def BEHAV_DIST_1 : DDist String :=
  ⟨[("stay", 33/100), ("frwd", 33/100), ("turn", 33/100), ("search", 1/100)]⟩

/-- HelperRobotBrain lines 103-106 / ScaredRobotBrain lines 59-62: behavior
to (forward velocity, rotational velocity). -/
def BEHAVIOR_DICT : List (String × ℚ × ℚ) :=
  [("stay", (0, 0)), ("frwd", (1/2, 0)), ("turn", (0, 1)), ("search", (0, 0))]

/-- Dictionary lookup in `BEHAVIOR_DICT`; a missing key is a Python
KeyError, hence `none`. -/
def behaviorLookup (b : String) : Option (ℚ × ℚ) :=
  (BEHAVIOR_DICT.find? (fun q => decide (q.1 = b))).map (fun q => q.2)

/-- HelperRobotBrain line 117. -/
def NUMBER_LOCATIONS : ℕ := 16

/-- HelperRobotBrain line 138: `int(NUMBER_LOCATIONS / 2)`. -/
def half_length : ℕ := NUMBER_LOCATIONS / 2

/-- HelperRobotBrain line 115, in units of pi:
`2*pi/(half_length*20) = pi/80`.  In the source this initializer runs
before `half_length` is bound (see the module-order model below). -/
def ANGLE_TOL : ℚ := 1 / 80

/-- HelperRobotBrain line 132, in units of pi:
`[x / (NUMBER_LOCATIONS/2) * pi for x in range(0, NUMBER_LOCATIONS)]`. -/
def locations : List ℚ :=
  (List.range NUMBER_LOCATIONS).map (fun x => (x : ℚ) / (half_length : ℚ))

/-- Assoc-list write `d[k] = v` for the Python dictionaries `loc_dict` and
`new_belief`: overwrite an existing key in place, append a fresh key. -/
def setKey (l : List (ℚ × ℚ)) (k v : ℚ) : List (ℚ × ℚ) :=
  if l.any (fun q => decide (q.1 = k)) then
    l.map (fun q => if q.1 = k then (k, v) else q)
  else l ++ [(k, v)]

/-- Assoc-list read `d[k]`; a missing key is a Python KeyError, hence
`none`. -/
def getKey (l : List (ℚ × ℚ)) (k : ℚ) : Option ℚ :=
  (l.find? (fun q => decide (q.1 = k))).map (fun q => q.2)

/-- `update_loc_obs` from HelperRobotBrain lines 77-92: normalize the
recorded voltages into a distribution over the recorded angles.  A zero
total is a Python ZeroDivisionError, and the constructed `DDist` goes
through the spec-modelled constructor. -/
def update_loc_obs (d : List (ℚ × ℚ)) : Option (DDist ℚ) :=
  let peak := (d.map (fun q => q.2)).sum
  if peak ≤ 0 then none
  else DDist.fromWeights (d.map (fun q => (q.1, q.2 / peak)))

/-- The sliding-window update of `update_voltage_values` (HelperRobotBrain
lines 63-75): append `max front back`, pop the oldest entry. -/
def pushVolt (vv : List ℚ) (front back : ℚ) : List ℚ :=
  (vv ++ [max front back]).drop 1

/-- The average returned by `update_voltage_values`. -/
def avgVolt (vv : List ℚ) : ℚ := (vv.foldl (· + ·) 0) / (vv.length : ℚ)

/-- The mutable module state of HelperRobotBrain (lines 119-140) together
with the actuator state of the robot (`fv`, `rv`, and the analog signal
voltage). -/
structure HelperState where
  behavior : DDist String
  consecutives : ℕ
  prev_behav : String
  to_search : ℕ
  loc_index : ℕ
  loc_dict : List (ℚ × ℚ)
  loc_belief : DDist ℚ
  voltage_values : List ℚ
  fv : ℚ
  rv : ℚ
  analog : ℚ
deriving DecidableEq

/-- The module-initial state of HelperRobotBrain (lines 119-140), with the
actuators at rest. -/
def helperInit : HelperState :=
  { behavior := INIT_BEHAV
    consecutives := 0
    prev_behav := "stay"
    to_search := 0
    loc_index := 0
    loc_dict := locations.map (fun x => (x, 0))
    loc_belief := (uniform_dist locations).getD ⟨[]⟩
    voltage_values := List.replicate 10 0
    fv := 0
    rv := 0
    analog := 0 }

/-- The abandon-search branch of `on_step` (HelperRobotBrain lines 186-188):
when the window average has dropped below 2, `prev_behav` is reassigned the
result of `random_behavior()` with its default arguments and the step
returns. -/
def exitStep (vv : List ℚ) (drawn : String) (s : HelperState) : Option HelperState :=
  match random_behavior s.behavior s.consecutives "stay" false drawn with
  | none => none
  | some (this, b) =>
    some { s with voltage_values := vv, behavior := b, prev_behav := this }

/-- The sweep branch of `on_step` (HelperRobotBrain lines 193-212), taken
while `to_search < 2`: rotate until the heading matches
`locations[loc_index]`, then increment `loc_index`, record the microphone
readings, and fold them into the belief after each half circle. -/
def sweepStep (ptheta front back : ℚ) (vv : List ℚ) (s : HelperState) : Option HelperState :=
  match locations.get? s.loc_index with
  | none => none
  | some loc0 =>
    if ANGLE_TOL < |ptheta - loc0| then some { s with voltage_values := vv, rv := 1/2 }
    else
      match locations.get? (s.loc_index + 1),
            locations.get? ((s.loc_index + 1 + half_length) % (half_length * 2)) with
      | some k1, some k2 =>
        let d2 := setKey (setKey s.loc_dict k1 front) k2 back
        if (s.loc_index + 1 + 1) % half_length = 0 then
          match update_loc_obs d2 with
          | none => none
          | some obs =>
            match mixture s.loc_belief obs (1/2) with
            | none => none
            | some bel =>
              if s.loc_index + 1 = half_length * 2 then
                some { s with
                  voltage_values := vv
                  rv := 0
                  loc_dict := d2
                  loc_belief := bel
                  loc_index := 0
                  to_search := s.to_search + 1 }
              else
                some { s with
                  voltage_values := vv
                  rv := 0
                  loc_dict := d2
                  loc_belief := bel
                  loc_index := s.loc_index + 1 }
        else
          some { s with
            voltage_values := vv
            rv := 0
            loc_dict := d2
            loc_index := s.loc_index + 1 }
      | _, _ => none

/-- The navigate branch of `on_step` (HelperRobotBrain lines 213-241), taken
once `to_search >= 2`: wall-reflection correction of the belief, then a
proportional turn toward the most probable angle, or forward motion with the
stop-and-research test against the recorded reading. -/
def navigateStep (ptheta front : ℚ) (near_wall : Bool) (vv : List ℚ) (s : HelperState) :
    Option HelperState :=
  match s.loc_belief.max_prob_elt with
  | none => none
  | some des0 =>
    let refl0 : Option (DDist ℚ × ℚ) :=
      if |ptheta - des0| < ANGLE_TOL ∧ near_wall = true then
        match locations.findIdx? (fun a => decide (a = des0)) with
        | none => none
        | some idx =>
          match locations.get? ((idx + half_length) % (half_length * 2)) with
          | none => none
          | some opp =>
            let nb := s.loc_belief.support.map (fun x => (x, s.loc_belief.prob x))
            let nb2 := setKey (setKey nb opp
              (((getKey nb opp).getD 0) + ((getKey nb des0).getD 0))) des0 0
            match DDist.fromWeights nb2 with
            | none => none
            | some bel =>
              match bel.max_prob_elt with
              | none => none
              | some des1 => some (bel, des1)
      else some (s.loc_belief, des0)
    match refl0 with
    | none => none
    | some (bel, des) =>
      if ANGLE_TOL < |ptheta - des| then
        some { s with
          voltage_values := vv
          loc_belief := bel
          fv := 0
          rv := -(ptheta - des) }
      else if near_wall = false then
        match getKey s.loc_dict des with
        | none => none
        | some recd =>
          if front - recd < 1/5 then
            some { s with
              voltage_values := vv
              loc_belief := bel
              fv := 0
              rv := 0
              to_search := 0 }
          else
            some { s with
              voltage_values := vv
              loc_belief := bel
              fv := 1/2
              rv := 0 }
      else some { s with voltage_values := vv, loc_belief := bel }

/-- The search side of HelperRobotBrain's `on_step` (lines 181-241), run
when `prev_behav == 'search'` on real hardware: update the voltage window,
abandon the search when the average is below 2, otherwise sweep or
navigate. -/
def helperSearchStep (ptheta front back : ℚ) (near_wall : Bool) (drawn : String)
    (s : HelperState) : Option HelperState :=
  let vv := pushVolt s.voltage_values front back
  if avgVolt vv < 2 then exitStep vv drawn s
  else if s.to_search < 2 then sweepStep ptheta front back vv s
  else navigateStep ptheta front near_wall vv s

/-- The roaming side of HelperRobotBrain's `on_step` (lines 242-253): draw a
behavior, update `consecutives`, force `search` and light the signal when
the window average exceeds 2, then apply `BEHAVIOR_DICT`. -/
def helperRoamStep (front back : ℚ) (near_wall : Bool) (drawn : String)
    (s : HelperState) : Option HelperState :=
  let vv := pushVolt s.voltage_values front back
  match random_behavior s.behavior s.consecutives s.prev_behav near_wall drawn with
  | none => none
  | some (this, b) =>
    let c := if s.prev_behav = this then s.consecutives + 1 else 0
    let this2 := if 2 < avgVolt vv then "search" else this
    let an := if 2 < avgVolt vv then (33 : ℚ) / 10 else s.analog
    match behaviorLookup this2 with
    | none => none
    | some fr =>
      some { s with
        voltage_values := vv
        behavior := b
        consecutives := c
        prev_behav := this2
        fv := fr.1
        rv := fr.2
        analog := an }

/-- HelperRobotBrain's `on_step` (lines 161-253): the search side runs when
`prev_behav == 'search'` and the robot is not simulated, otherwise the
roaming side runs.  `ptheta`, `front`, `back` and `near_wall` are the
sensor snapshot of the tick and `drawn` the tick's random draw. -/
def helperOnStep (simulated : Bool) (ptheta front back : ℚ) (near_wall : Bool)
    (drawn : String) (s : HelperState) : Option HelperState :=
  if s.prev_behav = "search" ∧ simulated = false then
    helperSearchStep ptheta front back near_wall drawn s
  else helperRoamStep front back near_wall drawn s

/-- One per-tick input to `helperOnStep`. -/
structure StepInput where
  ptheta : ℚ
  front : ℚ
  back : ℚ
  near_wall : Bool
  drawn : String

/-- Run `helperOnStep` (not simulated) over a list of per-tick inputs. -/
def helperRun (l : List StepInput) (s : HelperState) : Option HelperState :=
  l.foldlM (fun st i => helperOnStep false i.ptheta i.front i.back i.near_wall i.drawn st) s

/-- States of HelperRobotBrain reachable from the module-initial state by
successful (non-crashing) ticks on real hardware, over arbitrary sensor
inputs and draws. -/
inductive HelperReach : HelperState → Prop where
  | init : HelperReach helperInit
  | step (ptheta front back : ℚ) (near_wall : Bool) (drawn : String)
      (s s2 : HelperState) : HelperReach s →
      helperOnStep false ptheta front back near_wall drawn s = some s2 →
      HelperReach s2

/-- The actuator state touched by the `on_stop` hooks. -/
structure Actuators where
  fv : ℚ
  rv : ℚ
  analog : ℚ
deriving DecidableEq

/-- HelperRobotBrain's `on_stop` (lines 255-259): it only sets the analog
signal voltage to 3.3 (the source comment: turns the search light on). -/
def helperOnStop (a : Actuators) : Actuators := { a with analog := 33/10 }

/-- ScaredRobotBrain's `on_stop` (lines 136-143): on real hardware it sets
the analog signal voltage to 0; when simulated it does nothing. -/
def scaredOnStop (simulated : Bool) (a : Actuators) : Actuators :=
  if simulated then a else { a with analog := 0 }

/-- The module-level assignments of HelperRobotBrain (lines 99-140) in file
order, each with the previously-assigned module names its initializer
references.  Names bound by imports (`math`, `PioneerRobot`, `DDist`,
`uniform_dist`, ...) are pre-bound and omitted. -/
def helperModuleDefs : List (String × List String) :=
  [("robot", []),
   ("pi", []),
   ("BEHAVIOR_DICT", []),
   ("SENSORS_ON", []),
   ("INIT_BEHAV", []),
   ("WALL_DISTANCE", []),
   ("ANGLE_TOL", ["pi", "half_length"]),
   ("NUMBER_LOCATIONS", []),
   ("behavior", ["INIT_BEHAV"]),
   ("consecutives", []),
   ("prev_behav", []),
   ("to_search", []),
   ("voltage_values", []),
   ("locations", ["NUMBER_LOCATIONS", "pi"]),
   ("loc_dict", ["locations"]),
   ("loc_belief", ["locations"]),
   ("half_length", ["NUMBER_LOCATIONS"]),
   ("loc_index", [])]

/-- Scan module-level definitions in file order and return the first
(name, referenced-name) pair whose reference is not yet bound; `none` when
module initialization is well-ordered. -/
def firstUnbound : List (String × List String) → List String → Option (String × String)
  | [], _ => none
  | (n, refs) :: rest, bound =>
    match refs.find? (fun r => decide (r ∉ bound)) with
    | some r => some (n, r)
    | none => firstUnbound rest (n :: bound)

/-! Generic lemmas about the spec-modelled distribution operations. -/

theorem prob_map_keys {α : Type} [DecidableEq α] (l : List α) (f : α → ℚ) (x : α) :
    DDist.prob ⟨l.map (fun k => (k, f k))⟩ x = if x ∈ l then f x else 0 := by
  induction l with
  | nil => simp [DDist.prob]
  | cons a t ih =>
    by_cases hax : a = x
    · subst hax
      simp [DDist.prob, List.find?]
    · have hfind :
        (List.map (fun k => (k, f k)) (a :: t)).find? (fun q => decide (q.1 = x)) =
          (List.map (fun k => (k, f k)) t).find? (fun q => decide (q.1 = x)) := by
        simp [List.find?, hax]
      simp only [DDist.prob] at ih ⊢
      rw [hfind, ih]
      simp [List.mem_cons, hax, Ne.symm hax]

theorem mem_support_of_prob_ne_zero {α : Type} [DecidableEq α] (d : DDist α) (x : α)
    (h : d.prob x ≠ 0) : x ∈ d.support := by
  unfold DDist.prob at h
  cases hf : d.mass.find? (fun q => decide (q.1 = x)) with
  | none => rw [hf] at h; exact absurd rfl h
  | some q =>
    rw [hf] at h
    have hqx : q.1 = x := by
      have := List.find?_some hf
      simpa using this
    have hqm : q ∈ d.mass := List.mem_of_find?_eq_some hf
    unfold DDist.support
    refine List.mem_map.mpr ⟨q, ?_, hqx⟩
    exact List.mem_filter.mpr ⟨hqm, by simpa using h⟩

theorem prob_eq_zero_of_not_mem_support {α : Type} [DecidableEq α] (d : DDist α) (x : α)
    (h : x ∉ d.support) : d.prob x = 0 := by
  by_contra hne
  exact h (mem_support_of_prob_ne_zero d x hne)

theorem keyUnion_mem {α : Type} [DecidableEq α] (l1 l2 : List α) (x : α) :
    x ∈ keyUnion l1 l2 ↔ x ∈ l1 ∨ x ∈ l2 := by
  unfold keyUnion
  by_cases h1 : x ∈ l1 <;> simp [List.mem_append, List.mem_filter, h1]

theorem mixture_prob {α : Type} [DecidableEq α] (d1 d2 : DDist α) (w : ℚ) (m : DDist α)
    (h : mixture d1 d2 w = some m) (x : α) :
    m.prob x = w * d1.prob x + (1 - w) * d2.prob x := by
  unfold mixture at h
  by_cases hw : 0 ≤ w ∧ w ≤ 1
  · rw [if_pos hw] at h
    have hm :
        m = ⟨(keyUnion d1.support d2.support).map
          (fun k => (k, w * d1.prob k + (1 - w) * d2.prob k))⟩ :=
      (Option.some.injEq _ _).mp h.symm
    rw [hm, prob_map_keys]
    by_cases hx : x ∈ keyUnion d1.support d2.support
    · rw [if_pos hx]
    · rw [if_neg hx]
      rw [keyUnion_mem] at hx
      push_neg at hx
      rw [prob_eq_zero_of_not_mem_support d1 x hx.1,
          prob_eq_zero_of_not_mem_support d2 x hx.2]
      ring
  · rw [if_neg hw] at h
    exact absurd h (by simp)

theorem delta_prob {α : Type} [DecidableEq α] (a x : α) :
    (delta_dist a).prob x = if x = a then 1 else 0 := by
  by_cases h : a = x
  · subst h; simp [delta_dist, DDist.prob, List.find?]
  · simp [delta_dist, DDist.prob, List.find?, h, Ne.symm h]

theorem mem_condition_support {α : Type} [DecidableEq α] (d : DDist α) (p : α → Bool)
    (c : DDist α) (h : d.condition p = some c) (x : α) (hx : x ∈ c.support) :
    p x = true := by
  unfold DDist.condition at h
  set kept := d.mass.filter (fun q => p q.1) with hkept
  set total := (kept.map (fun q => q.2)).sum with htotal
  by_cases hpos : 0 < total
  · rw [if_pos hpos] at h
    have hc : c = ⟨kept.map (fun q => (q.1, q.2 / total))⟩ :=
      (Option.some.injEq _ _).mp h.symm
    rw [hc] at hx
    unfold DDist.support at hx
    obtain ⟨q, hq, hqx⟩ := List.mem_map.mp hx
    have hq2 : q ∈ kept.map (fun q => (q.1, q.2 / total)) := (List.mem_filter.mp hq).1
    obtain ⟨q0, hq0, hq0x⟩ := List.mem_map.mp hq2
    have hpq0 : p q0.1 = true := (List.mem_filter.mp hq0).2
    have : q0.1 = x := by
      have : q.1 = x := hqx
      rw [← hq0x] at this
      exact this
    rwa [this] at hpq0
  · rw [if_neg hpos] at h
    exact absurd h (by simp)


set_option maxRecDepth 1000000

/-! Claim theorems. -/

/-- C1 (amended): in the non-favored-repeat branch of `random_behavior`
(previous behavior not `search`, not near a wall, previous behavior differs
from the stored distribution's most-probable element), the OLD distribution
receives mixture weight `min((consecutives+1)/10, 1)` and the delta at the
previous behavior receives the complementary weight
`1 - min((consecutives+1)/10, 1)`; consequently, at `consecutives = 9` the
stored distribution is pointwise unchanged by the update. -/
theorem nonfavored_mixture_weights (bs : DDist String) (c : ℕ)
    (prev drawn r m : String) (nd : DDist String)
    (h1 : prev ≠ "search") (h2 : bs.max_prob_elt = some m) (h3 : prev ≠ m)
    (h4 : random_behavior bs c prev false drawn = some (r, nd)) :
    (∀ x, nd.prob x = min (((c : ℚ) + 1) / 10) 1 * bs.prob x
        + (1 - min (((c : ℚ) + 1) / 10) 1) * (if x = prev then 1 else 0))
    ∧ (c = 9 → ∀ x, nd.prob x = bs.prob x) := by
  unfold random_behavior at h4
  rw [if_neg h1] at h4
  simp only [Bool.false_eq_true, if_false, h2, if_neg h3] at h4
  split at h4
  · exact absurd h4 (by simp)
  · rename_i nd2 hm
    split at h4
    · rename_i hd
      have hnd : nd2 = nd := by
        have hpair := (Option.some.injEq _ _).mp h4
        exact (Prod.mk.injEq _ _ _ _).mp hpair |>.2
      subst hnd
      constructor
      · intro x
        rw [mixture_prob _ _ _ _ hm x, delta_prob]
      · intro hc9 x
        subst hc9
        rw [mixture_prob _ _ _ _ hm x, delta_prob]
        norm_num
    · exact absurd h4 (by simp)

/-- The distribution produced by the non-favored-repeat branch from
`INIT_BEHAV` with previous behavior `turn` at `consecutives = 9`: the spike
weight is 0, so the masses are exactly those of `INIT_BEHAV`. -/
def D9 : DDist String := ⟨[("stay", 17/50), ("frwd", 33/100), ("turn", 33/100)]⟩

/-- C1 witness: concrete instance of the amended theorem, with the initial
Helper distribution, previous behavior `turn` and `consecutives = 9`. -/
theorem nonfavored_mixture_weights_witness :
    ("turn" : String) ≠ "search" ∧ D9.prob "turn" = INIT_BEHAV.prob "turn" :=
  ⟨by decide,
    (nonfavored_mixture_weights INIT_BEHAV 9 "turn" "turn" "turn" "stay" D9
      (by decide) (by with_unfolding_all decide) (by decide)
      (by with_unfolding_all decide)).2 rfl "turn"⟩

/-- C1 counterexample to the claim as stated: with the initial Helper
distribution, previous behavior `turn` and `consecutives = 9`, the updated
distribution gives `turn` probability 33/100, not 1: the spike receives
weight `1 - min((9+1)/10, 1) = 0`, not `min((9+1)/10, 1) = 1`. -/
theorem nonfavored_spike_counterexample :
    random_behavior INIT_BEHAV 9 "turn" false "turn" = some ("turn", D9) ∧
    D9.prob "turn" = 33/100 ∧ ((33 : ℚ)/100 ≠ 1) := by
  refine ⟨by with_unfolding_all decide, by with_unfolding_all decide, by norm_num⟩

/-- C4 (amended): whenever `random_behavior` is called with
`near_wall = true` and a previous behavior other than `search`, the behavior
it returns is never `frwd`, `stay` or `search`.  (The claim's `regardless of
the previous behavior` fails: a previous behavior of `search` short-circuits
to `search` before the near-wall conditioning, see the counterexample.) -/
theorem near_wall_excludes_amended (bs : DDist String) (c : ℕ)
    (prev drawn r : String) (b : DDist String)
    (h1 : prev ≠ "search")
    (h4 : random_behavior bs c prev true drawn = some (r, b)) :
    r ≠ "frwd" ∧ r ≠ "stay" ∧ r ≠ "search" := by
  unfold random_behavior at h4
  rw [if_neg h1] at h4
  simp only [if_true] at h4
  split at h4
  · exact absurd h4 (by simp)
  · rename_i cd hc
    split at h4
    · rename_i hd
      have hr : drawn = r := by
        have hpair := (Option.some.injEq _ _).mp h4
        exact (Prod.mk.injEq _ _ _ _).mp hpair |>.1
      subst hr
      have hp := mem_condition_support bs _ cd hc drawn hd
      have hnotin : drawn ∉ (["frwd", "search", "stay"] : List String) :=
        of_decide_eq_true hp
      simp only [List.mem_cons, List.not_mem_nil, or_false] at hnotin
      push_neg at hnotin
      exact ⟨hnotin.1, hnotin.2.2, hnotin.2.1⟩
    · exact absurd h4 (by simp)

/-- C4 witness: concrete instance of the amended theorem with the initial
Helper distribution and previous behavior `stay`. -/
theorem near_wall_excludes_witness :
    ("turn" : String) ≠ "frwd" ∧ ("turn" : String) ≠ "stay" ∧
    ("turn" : String) ≠ "search" :=
  near_wall_excludes_amended INIT_BEHAV 0 "stay" "turn" "turn" INIT_BEHAV
    (by decide) (by with_unfolding_all decide)

/-- C4 counterexample to the claim as stated: with `near_wall = true` but
previous behavior `search`, `random_behavior` returns `search` (the sticky
search branch runs before the near-wall conditioning). -/
theorem near_wall_search_counterexample :
    (random_behavior INIT_BEHAV 0 "search" true "stay").map (fun p => p.1)
      = some "search" := by with_unfolding_all decide

/-- C7 (confirmed): in the near-wall branch of `random_behavior` (previous
behavior not `search`, `near_wall = true`), the stored global behavior
distribution is returned unchanged: the conditioned distribution is used
only for the returned sample. -/
theorem near_wall_distribution_unchanged (bs : DDist String) (c : ℕ)
    (prev drawn r : String) (b : DDist String)
    (h1 : prev ≠ "search")
    (h4 : random_behavior bs c prev true drawn = some (r, b)) :
    b = bs := by
  unfold random_behavior at h4
  rw [if_neg h1] at h4
  simp only [if_true] at h4
  split at h4
  · exact absurd h4 (by simp)
  · split at h4
    · have hpair := (Option.some.injEq _ _).mp h4
      exact ((Prod.mk.injEq _ _ _ _).mp hpair |>.2).symm
    · exact absurd h4 (by simp)

/-- C7 witness: concrete instance with the Scared robot's initial
distribution and previous behavior `frwd`. -/
theorem near_wall_distribution_unchanged_witness :
    ("frwd" : String) ≠ "search" ∧ BEHAV_DIST_1 = BEHAV_DIST_1 :=
  ⟨by decide,
    near_wall_distribution_unchanged BEHAV_DIST_1 5 "frwd" "turn" "turn"
      BEHAV_DIST_1 (by decide) (by with_unfolding_all decide)⟩

/-- C8 (amended): the favored-repeat mixture weight
`(10000 - consecutives)/10000` lies in `[0, 1]` exactly when
`consecutives <= 10000`; the source applies it without any clamping, so the
weight leaves `[0, 1]` as soon as `consecutives` exceeds 10000 (and such
states are reachable, see the counterexample). -/
theorem branch3_weight_in_range (c : ℕ) :
    (0 ≤ branch3Weight c ∧ branch3Weight c ≤ 1) ↔ c ≤ 10000 := by
  unfold branch3Weight
  constructor
  · rintro ⟨h0, _⟩
    by_contra hgt
    push_neg at hgt
    have hc : (10000 : ℚ) < (c : ℚ) := by exact_mod_cast hgt
    have : ((10000 : ℚ) - c) / 10000 < 0 := by
      apply div_neg_of_neg_of_pos _ (by norm_num)
      linarith
    linarith
  · intro hle
    have hc : (c : ℚ) ≤ 10000 := by exact_mod_cast hle
    constructor
    · apply div_nonneg _ (by norm_num)
      linarith
    · rw [div_le_one (by norm_num)]
      have : (0 : ℚ) ≤ (c : ℚ) := by positivity
      linarith

/-- The behavior distribution after one non-favored spike toward `turn` from
`INIT_BEHAV` at `consecutives = 0`:
`mixture(INIT_BEHAV, delta_dist turn, 1/10)`. -/
def B2 : DDist String := ⟨[("stay", 17/500), ("frwd", 33/1000), ("turn", 933/1000)]⟩

/-- A Helper state in which the robot has been pinned against a wall while
repeating `turn`: the stored distribution is `B2` (argmax `turn`), the
previous behavior is `turn`, and `consecutives` counts the repeats.  The
localization state is still at its module-initial values. -/
def wallState (c : ℕ) : HelperState :=
  { behavior := B2
    consecutives := c
    prev_behav := "turn"
    to_search := 0
    loc_index := 0
    loc_dict := locations.map (fun x => (x, 0))
    loc_belief := (uniform_dist locations).getD ⟨[]⟩
    voltage_values := List.replicate 10 0
    fv := 0
    rv := 1
    analog := 0 }

/-- The state after the first tick of the run leading to `wallState`. -/
def stateA : HelperState := { helperInit with prev_behav := "turn", rv := 1 }

/-- `random_behavior` on a near-wall tick with stored distribution `B2` and
previous behavior `turn`: the conditioned distribution is a point mass at
`turn`, the draw is forced to `turn`, and the stored distribution is
returned unchanged (any repeat count). -/
theorem rb_wall_turn (c : ℕ) :
    random_behavior B2 c "turn" true "turn" = some ("turn", B2) := by
  unfold random_behavior
  rw [if_neg (by decide : ¬ ("turn" : String) = "search")]
  have hcond : B2.condition
      (fun x => decide (x ∉ (["frwd", "search", "stay"] : List String)))
      = some ⟨[("turn", 1)]⟩ := by with_unfolding_all decide
  simp only [if_true, hcond]
  have hsup : ("turn" : String) ∈ (DDist.support ⟨[("turn", 1)]⟩) := by
    with_unfolding_all decide
  rw [if_pos hsup]

/-- One near-wall tick from `wallState c`: the stored distribution is
untouched and `consecutives` climbs by one. -/
theorem wall_step (c : ℕ) :
    helperOnStep false 0 0 0 true "turn" (wallState c) = some (wallState (c + 1)) := by
  have hpb : (wallState c).prev_behav = "turn" := rfl
  have hbe : (wallState c).behavior = B2 := rfl
  have hco : (wallState c).consecutives = c := rfl
  have hvv : (wallState c).voltage_values = List.replicate 10 0 := rfl
  have hmode : ¬ ((wallState c).prev_behav = "search" ∧ false = false) := by
    rw [hpb]
    intro h
    exact absurd h.1 (by decide)
  have hpush : pushVolt (List.replicate 10 0) 0 0 = List.replicate 10 0 := by
    with_unfolding_all decide
  have havg : ¬ ((2 : ℚ) < avgVolt (List.replicate 10 0)) := by
    with_unfolding_all decide
  have hbl : behaviorLookup "turn" = some ((0 : ℚ), (1 : ℚ)) := by
    with_unfolding_all decide
  unfold helperOnStep
  rw [if_neg hmode]
  simp only [helperRoamStep, hpb, hbe, hco, hvv, hpush, rb_wall_turn, havg,
    if_false, if_pos rfl, hbl]
  rfl

/-- Every `wallState (1 + n)` is reachable: two roaming ticks drawing `turn`
reach `wallState 1`, and each further near-wall tick increments
`consecutives`. -/
theorem wall_reach (n : ℕ) : HelperReach (wallState (1 + n)) := by
  induction n with
  | zero =>
    have h1 : HelperReach stateA :=
      HelperReach.step 0 0 0 false "turn" helperInit stateA HelperReach.init
        (by with_unfolding_all decide)
    exact HelperReach.step 0 0 0 false "turn" stateA (wallState 1) h1
      (by with_unfolding_all decide)
  | succ k ih =>
    exact HelperReach.step 0 0 0 true "turn" (wallState (1 + k))
      (wallState (1 + k + 1)) ih (wall_step (1 + k))

/-- C8 counterexample to the claim as stated: the state `wallState 10001`
is reachable, its previous behavior `turn` is the stored distribution's
most-probable element (so the favored-repeat branch runs on the next
roaming tick), the mixture weight `(10000 - 10001)/10000` is negative
(outside `[0, 1]`), and that tick fails with InvalidWeight (`none`): the
failure is reachable from this call site because the source does not
clamp. -/
theorem invalid_weight_reachable :
    HelperReach (wallState 10001) ∧
    (wallState 10001).behavior.max_prob_elt = some ((wallState 10001).prev_behav) ∧
    branch3Weight ((wallState 10001).consecutives) < 0 ∧
    helperOnStep false 0 0 0 false "turn" (wallState 10001) = none := by
  refine ⟨?_, by with_unfolding_all decide, ?_, by with_unfolding_all decide⟩
  · have h := wall_reach 10000
    norm_num at h
    exact h
  · show branch3Weight 10001 < 0
    unfold branch3Weight
    norm_num

/-- C2: no successful sweep-phase tick ever changes `to_search`: the
full-circle reset guard `(loc_index+1) % half_length == 0 && loc_index ==
half_length*2` is unsatisfiable (16 is not congruent to 7 mod 8), so the
rotation counter is never incremented and the navigate phase is never
reached from the sweep. -/
theorem sweep_to_search_constant (ptheta front back : ℚ) (near_wall : Bool)
    (drawn : String) (s s2 : HelperState)
    (hphase : s.to_search < 2)
    (hstep : helperSearchStep ptheta front back near_wall drawn s = some s2) :
    s2.to_search = s.to_search := by
  simp only [helperSearchStep] at hstep
  split at hstep
  · unfold exitStep at hstep
    repeat' split at hstep
    all_goals first
      | exact Option.noConfusion hstep
      | (injection hstep with h
         subst h
         rfl)
  · unfold sweepStep at hstep
    dsimp only at hstep
    repeat' split at hstep
    all_goals first
      | exact Option.noConfusion hstep
      | (injection hstep with h
         subst h
         rfl)
      | (exfalso
         have h8 : (s.loc_index + 1 + 1) % half_length = 0 := by assumption
         have h16 : s.loc_index + 1 = half_length * 2 := by assumption
         have hh : half_length = 8 := rfl
         rw [hh] at h8 h16
         omega)

/-- The state produced by the abandon-search branch from the module-initial
state when the window average is still low: only the voltage window, the
behavior distribution and `prev_behav` change. -/
def c2WitnessState : HelperState :=
  { helperInit with voltage_values := List.replicate 9 0 ++ [3], prev_behav := "turn" }

/-- C2 witness: a concrete successful sweep-phase tick (here the
abandon-search branch at the module-initial state) preserves `to_search`. -/
theorem sweep_to_search_constant_witness :
    c2WitnessState.to_search = helperInit.to_search :=
  sweep_to_search_constant 0 3 3 false "turn" helperInit c2WitnessState
    (by decide) (by with_unfolding_all decide)

/-- A roaming tick of the run below: heading irrelevant, both microphones at
3 volts, no wall, prescribed draw. -/
def roamIn (d : String) : StepInput := ⟨0, 3, 3, false, d⟩

/-- A sweep tick of the run below: heading exactly at the given angle, both
microphones at 3 volts, no wall. -/
def sweepIn (q : ℚ) : StepInput := ⟨q, 3, 3, false, "stay"⟩

/-- A run of HelperRobotBrain from the module-initial state: seven roaming
ticks whose loud microphones fill the voltage window until the average
crosses 2 (entering search on the seventh), followed by sixteen sweep ticks
whose headings match `locations[loc_index]` exactly. -/
def c3Inputs : List StepInput :=
  [roamIn "turn", roamIn "stay", roamIn "turn", roamIn "stay",
   roamIn "turn", roamIn "stay", roamIn "turn"] ++
  (List.range 16).map (fun k => sweepIn ((k : ℚ) / 8))

/-- C3: the sweep indexes `locations` out of bounds.  After 22 ticks of the
run `c3Inputs` the sweep has recorded 15 times and `loc_index = 15`; the
23rd tick increments `loc_index` to 16 before using it, evaluates
`locations[16]` on a 16-element list, and the step fails (IndexError): the
run returns `none`.  The reset of `loc_index` to 0 never happened because
its guard is unsatisfiable (see the sweep theorem above). -/
theorem sweep_index_out_of_bounds :
    helperRun c3Inputs helperInit = none ∧
    (helperRun (c3Inputs.take 22) helperInit).map
      (fun s => (s.prev_behav, s.to_search, s.loc_index)) = some ("search", 0, 15) ∧
    locations.get? (15 + 1) = none := by
  refine ⟨?_, ?_, ?_⟩ <;> with_unfolding_all decide

/-- C5 (amended): in the navigate phase (window average at least 2,
`to_search >= 2`), when the heading is within tolerance of the most probable
angle and no obstacle is ahead, the robot moves forward with `fv = 1/2`, and
it stops (`fv = 0`) and resets `to_search` to 0 exactly when
`front - recorded < 0.2` — that is, when the front reading fails to exceed
the recorded reading by at least 0.2, not when it has dropped 0.2 below
it. -/
theorem navigate_stop_threshold_amended (ptheta front back : ℚ) (drawn : String)
    (s : HelperState) (des recd : ℚ)
    (h1 : ¬ avgVolt (pushVolt s.voltage_values front back) < 2)
    (h2 : ¬ s.to_search < 2)
    (h3 : s.loc_belief.max_prob_elt = some des)
    (h4 : ¬ ANGLE_TOL < |ptheta - des|)
    (h5 : getKey s.loc_dict des = some recd) :
    (helperSearchStep ptheta front back false drawn s).map (fun t => (t.fv, t.to_search))
      = some (if front - recd < 1/5 then ((0 : ℚ), (0 : ℕ)) else (1/2, s.to_search)) := by
  simp only [helperSearchStep, if_neg h1, if_neg h2]
  simp only [navigateStep, h3]
  rw [if_neg (fun h => absurd h.2 (by decide))]
  dsimp only
  rw [if_neg h4]
  simp only [if_true, h5]
  by_cases hf : front - recd < 1/5
  · rw [if_pos hf, if_pos hf]
    rfl
  · rw [if_neg hf, if_neg hf]
    rfl

/-- A navigate-phase state: two rotations done, belief a point mass at angle
0 with recorded reading 1, voltage window loud. -/
def navState : HelperState :=
  { helperInit with
    to_search := 2
    loc_belief := ⟨[(0, 1)]⟩
    loc_dict := [(0, 1)]
    voltage_values := List.replicate 10 3 }

/-- C5 witness: concrete instance of the amended theorem at `navState` with
`front = 3` (well above the recorded 1): the robot keeps moving forward and
`to_search` stays 2. -/
theorem navigate_stop_threshold_witness :
    (helperSearchStep 0 3 3 false "stay" navState).map (fun t => (t.fv, t.to_search))
      = some (if (3 : ℚ) - 1 < 1/5 then ((0 : ℚ), (0 : ℕ)) else (1/2, navState.to_search)) :=
  navigate_stop_threshold_amended 0 3 3 "stay" navState 0 1
    (by with_unfolding_all decide) (by decide) (by with_unfolding_all decide)
    (by with_unfolding_all decide) (by with_unfolding_all decide)

/-- C5 counterexample to the claim as stated: at `navState` with
`front = 1`, exactly equal to the recorded reading, the reading has NOT
dropped by more than 0.2 below the recorded value (`1 < 1 - 1/5` is false),
yet the robot stops and resets `to_search` to 0, because the source tests
`front - recorded < 0.2` instead of `front < recorded - 0.2`. -/
theorem navigate_stop_counterexample :
    (helperSearchStep 0 1 3 false "stay" navState).map (fun t => (t.fv, t.to_search))
      = some ((0 : ℚ), (0 : ℕ)) ∧
    ¬ ((1 : ℚ) < 1 - 1/5) := by
  refine ⟨by with_unfolding_all decide, by norm_num⟩

/-- C6 (amended): the localization state (`loc_belief`, `loc_dict`,
`loc_index`, `to_search`) is NOT reset at the search-mode boundaries: a
roaming tick (which is where search mode is entered when the window average
crosses 2) leaves all four components unchanged, and so does the
abandon-search tick (window average below 2).  The state is initialized
once at module load and only sweep/navigate ticks modify it. -/
theorem localization_state_frame (ptheta front back : ℚ) (near_wall : Bool)
    (drawn : String) (s s2 : HelperState)
    (hmode : s.prev_behav ≠ "search" ∨
      avgVolt (pushVolt s.voltage_values front back) < 2)
    (hstep : helperOnStep false ptheta front back near_wall drawn s = some s2) :
    s2.loc_belief = s.loc_belief ∧ s2.loc_dict = s.loc_dict ∧
    s2.loc_index = s.loc_index ∧ s2.to_search = s.to_search := by
  unfold helperOnStep at hstep
  split at hstep
  · rename_i hcond
    have hav : avgVolt (pushVolt s.voltage_values front back) < 2 := by
      rcases hmode with h | h
      · exact absurd hcond.1 h
      · exact h
    simp only [helperSearchStep, if_pos hav] at hstep
    unfold exitStep at hstep
    split at hstep
    · exact Option.noConfusion hstep
    · injection hstep with h
      subst h
      exact ⟨rfl, rfl, rfl, rfl⟩
  · simp only [helperRoamStep] at hstep
    split at hstep
    · exact Option.noConfusion hstep
    · split at hstep
      · exact Option.noConfusion hstep
      · injection hstep with h
        subst h
        exact ⟨rfl, rfl, rfl, rfl⟩

/-- A roaming state about to enter search: a mid-sweep `loc_index = 3`, one
recorded reading in `loc_dict`, and a loud voltage window. -/
def entryState : HelperState :=
  { helperInit with
    loc_index := 3
    loc_dict := setKey helperInit.loc_dict (1/8) 3
    voltage_values := List.replicate 10 3 }

/-- The state after the search-entering roaming tick from `entryState`. -/
def entryNextState : HelperState :=
  { entryState with prev_behav := "search", analog := 33/10 }

/-- C6 witness: concrete instance of the frame theorem at the
search-entering tick from `entryState`. -/
theorem localization_state_frame_witness :
    entryNextState.loc_belief = entryState.loc_belief ∧
    entryNextState.loc_dict = entryState.loc_dict ∧
    entryNextState.loc_index = entryState.loc_index ∧
    entryNextState.to_search = entryState.to_search :=
  localization_state_frame 0 3 3 false "turn" entryState entryNextState
    (Or.inl (by decide)) (by with_unfolding_all decide)

/-- C6 counterexample to the claim as stated: the tick from `entryState`
enters search mode (`prev_behav` becomes `search`), yet the bin index stays
3 and the bin-readings mapping is not the fresh module-initial one: nothing
is created fresh or reset on entry (nor on exit, see the frame theorem). -/
theorem localization_no_reset_counterexample :
    (helperOnStep false 0 3 3 false "turn" entryState).map
      (fun t => (t.prev_behav, t.loc_index, decide (t.loc_dict = helperInit.loc_dict)))
      = some ("search", 3, false) ∧ (3 : ℕ) ≠ 0 := by
  refine ⟨by with_unfolding_all decide, by decide⟩

/-- C9 (amended): neither brain's `on_stop` zeroes the velocities — both
leave `fv` and `rv` untouched.  HelperRobotBrain's `on_stop` drives the
signal to 3.3 volts (turning the search light ON, not off);
ScaredRobotBrain's drives it to 0 on real hardware and does nothing when
simulated.  Both hooks are idempotent. -/
theorem on_stop_actual_behavior (a : Actuators) (simulated : Bool) :
    helperOnStop (helperOnStop a) = helperOnStop a ∧
    (helperOnStop a).fv = a.fv ∧ (helperOnStop a).rv = a.rv ∧
    (helperOnStop a).analog = 33/10 ∧
    scaredOnStop simulated (scaredOnStop simulated a) = scaredOnStop simulated a ∧
    (scaredOnStop simulated a).fv = a.fv ∧ (scaredOnStop simulated a).rv = a.rv ∧
    (scaredOnStop false a).analog = 0 := by
  cases simulated <;> simp [helperOnStop, scaredOnStop]

/-- C9 counterexample to the claim as stated: stopping HelperRobotBrain
from a moving state leaves the forward velocity at 1/2 and the rotational
velocity at 1 (not zero) and sets the signal output to 3.3 volts (on, not
off). -/
theorem on_stop_unsafe_counterexample :
    (helperOnStop ⟨1/2, 1, 0⟩).fv = 1/2 ∧ (helperOnStop ⟨1/2, 1, 0⟩).rv = 1 ∧
    (helperOnStop ⟨1/2, 1, 0⟩).analog = 33/10 ∧
    ((1 : ℚ)/2 ≠ 0) ∧ ((1 : ℚ) ≠ 0) ∧ ((33 : ℚ)/10 ≠ 0) := by
  refine ⟨rfl, rfl, rfl, by norm_num, by norm_num, by norm_num⟩

/-- C10: evaluating HelperRobotBrain's module-level definitions in file
order, the first initializer referencing a not-yet-bound name is
`ANGLE_TOL` (line 115), which references `half_length`, bound only at line
138: module initialization raises NameError, contradicting the claim that
every referenced name is already bound. -/
theorem module_init_unbound_ref :
    firstUnbound helperModuleDefs [] = some ("ANGLE_TOL", "half_length") := by
  decide
